import Mathlib

set_option maxRecDepth 8192

/-!
Verification of the blessclient credential-bootstrapper core
(`blessclient/client.py`, `blessclient/user_ip.py`).

The Python source is shallowly embedded: pure helpers become Lean
functions, stateful code is modelled by explicit state passing, times
are integers (seconds or minutes) or calendar structures, and code that
can raise returns `Option`/explicit error constructors.
-/

/-! ## Canonical timestamps (`%Y%m%dT%H%M%SZ`)

`client.py` stores every expiration as a string in the fixed format
`YYYYMMDDThhmmssZ` (`DATETIME_STRING_FORMAT`) and parses it back with
`time.strptime` / `datetime.strptime`.  `StructTime` models the parsed
calendar fields that the comparisons inspect. -/

structure StructTime where
  year : Nat
  month : Nat
  day : Nat
  hour : Nat
  minute : Nat
  second : Nat
deriving DecidableEq, Repr

/-- Numeric value of a decimal digit character. -/
def dval (c : Char) : Nat := c.toNat - 48

/-- One alternative of a CPython `_strptime` field regex: consume a
fixed number of characters from the input and yield the field value and
the rest, or fail. -/
def FieldAlt : Type := List Char -> Option (Nat × List Char)

/-- `%Y` in CPython `_strptime.TimeRE`: exactly four digits
(`\d\d\d\d`), values `0000`-`9999`. -/
def altYear : FieldAlt := fun cs =>
  match cs with
  | a :: b :: c :: d :: rest =>
    if a.isDigit && b.isDigit && c.isDigit && d.isDigit then
      some (((dval a * 10 + dval b) * 10 + dval c) * 10 + dval d, rest)
    else none
  | _ => none

/-- `%m`: `1[0-2]|0[1-9]|[1-9]`, alternatives in regex order. -/
def altsMonth : List FieldAlt :=
  [fun cs =>
    match cs with
    | a :: b :: rest =>
      if a = '1' && '0' ≤ b && b ≤ '2' then some (10 + dval b, rest) else none
    | _ => none,
   fun cs =>
    match cs with
    | a :: b :: rest =>
      if a = '0' && '1' ≤ b && b ≤ '9' then some (dval b, rest) else none
    | _ => none,
   fun cs =>
    match cs with
    | a :: rest =>
      if '1' ≤ a && a ≤ '9' then some (dval a, rest) else none
    | _ => none]

/-- `%d`: `3[01]|[12]\d|0[1-9]|[1-9]| [1-9]`, in regex order. -/
def altsDay : List FieldAlt :=
  [fun cs =>
    match cs with
    | a :: b :: rest =>
      if a = '3' && '0' ≤ b && b ≤ '1' then some (30 + dval b, rest) else none
    | _ => none,
   fun cs =>
    match cs with
    | a :: b :: rest =>
      if ('1' ≤ a && a ≤ '2') && b.isDigit then
        some (dval a * 10 + dval b, rest)
      else none
    | _ => none,
   fun cs =>
    match cs with
    | a :: b :: rest =>
      if a = '0' && '1' ≤ b && b ≤ '9' then some (dval b, rest) else none
    | _ => none,
   fun cs =>
    match cs with
    | a :: rest =>
      if '1' ≤ a && a ≤ '9' then some (dval a, rest) else none
    | _ => none,
   fun cs =>
    match cs with
    | a :: b :: rest =>
      if a = ' ' && '1' ≤ b && b ≤ '9' then some (dval b, rest) else none
    | _ => none]

/-- `%H`: `2[0-3]|[0-1]\d|\d`, in regex order. -/
def altsHour : List FieldAlt :=
  [fun cs =>
    match cs with
    | a :: b :: rest =>
      if a = '2' && '0' ≤ b && b ≤ '3' then some (20 + dval b, rest) else none
    | _ => none,
   fun cs =>
    match cs with
    | a :: b :: rest =>
      if ('0' ≤ a && a ≤ '1') && b.isDigit then
        some (dval a * 10 + dval b, rest)
      else none
    | _ => none,
   fun cs =>
    match cs with
    | a :: rest => if a.isDigit then some (dval a, rest) else none
    | _ => none]

/-- `%M`: `[0-5]\d|\d`, in regex order. -/
def altsMinute : List FieldAlt :=
  [fun cs =>
    match cs with
    | a :: b :: rest =>
      if ('0' ≤ a && a ≤ '5') && b.isDigit then
        some (dval a * 10 + dval b, rest)
      else none
    | _ => none,
   fun cs =>
    match cs with
    | a :: rest => if a.isDigit then some (dval a, rest) else none
    | _ => none]

/-- `%S`: `6[0-1]|[0-5]\d|\d`, in regex order (leap seconds 60-61
allowed). -/
def altsSecond : List FieldAlt :=
  [fun cs =>
    match cs with
    | a :: b :: rest =>
      if a = '6' && '0' ≤ b && b ≤ '1' then some (60 + dval b, rest) else none
    | _ => none,
   fun cs =>
    match cs with
    | a :: b :: rest =>
      if ('0' ≤ a && a ≤ '5') && b.isDigit then
        some (dval a * 10 + dval b, rest)
      else none
    | _ => none,
   fun cs =>
    match cs with
    | a :: rest => if a.isDigit then some (dval a, rest) else none
    | _ => none]

/-- Try a field's alternatives in regex order with backtracking: an
alternative is kept only if the continuation (the rest of the pattern)
also succeeds, otherwise the next alternative is tried. -/
def tryAlts {α : Type} (alts : List FieldAlt) (cs : List Char)
    (cont : Nat → List Char → Option α) : Option α :=
  match alts with
  | [] => none
  | a :: rest =>
    match a cs with
    | some (v, csr) =>
      match cont v csr with
      | some r => some r
      | none => tryAlts rest cs cont
    | none => tryAlts rest cs cont

/-- A literal character of the format, matched case-insensitively
(`TimeRE` compiles the pattern with `re.IGNORECASE`). -/
def litChI (c : Char) : List Char → Option (List Char)
  | x :: rest => if x = c ∨ x = c.toLower then some rest else none
  | [] => none

/-- The regex phase of `time.strptime(s, '%Y%m%dT%H%M%SZ')` as CPython
`_strptime` builds it: the concatenation of the field patterns above
with the literals `T` and `Z`, matched from the start with the standard
ordered-alternation backtracking, and the subsequent
`len(data_string) != found.end()` check ("unconverted data remains")
requiring the whole string to be consumed.  Yields the six raw field
values. -/
def strptimeMatch (cs : List Char) :
    Option (Nat × Nat × Nat × Nat × Nat × Nat) :=
  match altYear cs with
  | none => none
  | some (y, cs1) =>
    tryAlts altsMonth cs1 (fun mo cs2 =>
      tryAlts altsDay cs2 (fun d cs3 =>
        match litChI 'T' cs3 with
        | none => none
        | some cs4 =>
          tryAlts altsHour cs4 (fun h cs5 =>
            tryAlts altsMinute cs5 (fun mi cs6 =>
              tryAlts altsSecond cs6 (fun sec cs7 =>
                match litChI 'Z' cs7 with
                | none => none
                | some cs8 =>
                  if cs8 = [] then some (y, mo, d, h, mi, sec) else none)))))

/-- Gregorian leap year, as `datetime.date` uses. -/
def leapYear (y : Nat) : Bool :=
  (y % 4 = 0 && y % 100 ≠ 0) || y % 400 = 0

/-- Days in a month, as `datetime.date` validates. -/
def daysInMonth (y m : Nat) : Nat :=
  if m = 2 then (if leapYear y then 29 else 28)
  else if m = 4 ∨ m = 6 ∨ m = 9 ∨ m = 11 then 30
  else 31

/-- `time.strptime(s, '%Y%m%dT%H%M%SZ')`: the regex phase above, then
the calendar validation `_strptime` performs by constructing
`datetime.date(year, month, day)` (to fill `tm_wday`/`tm_yday`): year
at least `MINYEAR = 1` and the day within the month, leap years
included.  `none` models the raised `ValueError`.  (Field ranges -
month 1-12, hour 0-23, minute 0-59, second 0-61 - are enforced by the
regex alternatives themselves; non-canonical but flexible-width strings
such as `9999123T235959Z` parse, exactly as in CPython.) -/
def parseTS (s : String) : Option StructTime :=
  match strptimeMatch s.toList with
  | none => none
  | some (y, mo, d, h, mi, sec) =>
    if 1 ≤ y ∧ 1 ≤ d ∧ d ≤ daysInMonth y mo then
      some ⟨y, mo, d, h, mi, sec⟩
    else none

/-- Sanity checks of `parseTS` against CPython `time.strptime`: the
flexible-width non-canonical `9999123T235959Z` parses (to 9999-12-03),
the canonical but calendar-invalid `99990231T000000Z` (February 31)
raises `ValueError`, a canonical string parses to its fields, and the
`re.IGNORECASE` compilation accepts lowercase `t`/`z`. -/
theorem parseTS_fidelity_checks :
    parseTS "9999123T235959Z" = some ⟨9999, 12, 3, 23, 59, 59⟩ ∧
    parseTS "99990231T000000Z" = none ∧
    parseTS "20200101T000000Z" = some ⟨2020, 1, 1, 0, 0, 0⟩ ∧
    parseTS "20200229t235959z" = some ⟨2020, 2, 29, 23, 59, 59⟩ ∧
    parseTS "20190229T000000Z" = none := by decide

/-- `parsed > time.gmtime()` on `time.struct_time` values.  Python
compares struct_times as 9-tuples; the first six fields are the calendar
fields below, `tm_wday`/`tm_yday` are determined by the date, and on a
full tie `tm_isdst` decides: `strptime` yields `-1` there while
`gmtime` yields `0`, so a parsed time equal to `now` in all calendar
fields is NOT greater.  Hence the comparison is exactly strict
lexicographic order on the six calendar fields. -/
def tsGt (a b : StructTime) : Bool :=
  if a.year ≠ b.year then a.year > b.year
  else if a.month ≠ b.month then a.month > b.month
  else if a.day ≠ b.day then a.day > b.day
  else if a.hour ≠ b.hour then a.hour > b.hour
  else if a.minute ≠ b.minute then a.minute > b.minute
  else if a.second ≠ b.second then a.second > b.second
  else false

/-- `datetime.datetime.utcnow() < datetime.datetime.strptime(...)`:
chronological (lexicographic) strict order on `datetime` values. -/
def tsLex (a b : StructTime) : Bool := tsGt b a

/-! ## Region ring (`get_regions`, client.py lines 115-133)

```python
regions = []
aws_regions = tuple(sorted(bless_config.get('REGION_ALIAS').values()))
try:
    ndx = aws_regions.index(region)
except ValueError:
    ndx = 0
while len(regions) < len(aws_regions):
    regions.append(aws_regions[ndx])
    ndx = (ndx + 1) % len(aws_regions)
return regions
```

`aws_regions` is the canonically (alphabetically) sorted tuple of
configured regions; the embedding takes it as the list argument. -/

/-- The `while` loop of `get_regions`: append the element at `ndx`,
advance `ndx` cyclically, `k` times. -/
def regionsLoop (l : List String) : Nat → Nat → List String
  | _, 0 => []
  | ndx, k + 1 => l.getD ndx "" :: regionsLoop l ((ndx + 1) % l.length) k

/-- The starting index computed by `get_regions`: `aws_regions.index(region)`,
falling back to `0` when `region` is not present (`ValueError`). -/
def regionStart (region : String) (aws_regions : List String) : Nat :=
  if region ∈ aws_regions then aws_regions.indexOf region else 0

/-- `get_regions(region, bless_config)` given the sorted configured
region list `aws_regions`. -/
def get_regions (region : String) (aws_regions : List String) : List String :=
  regionsLoop aws_regions (regionStart region aws_regions) aws_regions.length

theorem regionsLoop_length (l : List String) :
    ∀ k ndx, (regionsLoop l ndx k).length = k := by
  intro k
  induction k with
  | zero => intro ndx; rfl
  | succ k ih => intro ndx; simp [regionsLoop, ih]

theorem regionsLoop_append (l : List String) (hl : 0 < l.length) :
    ∀ a b ndx, ndx < l.length →
      regionsLoop l ndx (a + b) =
        regionsLoop l ndx a ++ regionsLoop l ((ndx + a) % l.length) b := by
  intro a
  induction a with
  | zero =>
    intro b ndx h
    simp [regionsLoop, Nat.mod_eq_of_lt h]
  | succ a ih =>
    intro b ndx h
    have hstep : (ndx + 1) % l.length < l.length := Nat.mod_lt _ hl
    have heq : a + 1 + b = (a + b) + 1 := by omega
    rw [heq]
    simp only [regionsLoop]
    rw [ih b ((ndx + 1) % l.length) hstep]
    have hmod : ((ndx + 1) % l.length + a) % l.length =
        (ndx + (a + 1)) % l.length := by
      rw [Nat.mod_add_mod]
      congr 1
      omega
    rw [hmod]
    rfl

theorem regionsLoop_succ (l : List String) (ndx k : Nat) :
    regionsLoop l ndx (k + 1) =
      l.getD ndx "" :: regionsLoop l ((ndx + 1) % l.length) k := rfl

theorem regionsLoop_no_wrap (l : List String) :
    ∀ k ndx, ndx + k ≤ l.length →
      regionsLoop l ndx k = (l.drop ndx).take k := by
  intro k
  induction k with
  | zero => intro ndx _; rfl
  | succ k ih =>
    intro ndx h
    have hndx : ndx < l.length := by omega
    have hdrop : l.drop ndx = l[ndx] :: l.drop (ndx + 1) :=
      List.drop_eq_getElem_cons hndx
    have hgetD : l.getD ndx "" = l[ndx] := List.getD_eq_getElem l "" hndx
    rw [regionsLoop_succ]
    cases k with
    | zero =>
      rw [show regionsLoop l ((ndx + 1) % l.length) 0 = [] from rfl,
        hdrop, hgetD]
      rfl
    | succ m =>
      have hlt : ndx + 1 < l.length := by omega
      rw [Nat.mod_eq_of_lt hlt, ih (ndx + 1) (by omega), hdrop, hgetD]
      rfl

theorem get_regions_eq_rotate (region : String) (l : List String)
    (hne : l ≠ []) :
    get_regions region l = l.rotate (regionStart region l) := by
  have hl : 0 < l.length := List.length_pos.2 hne
  have hs : regionStart region l < l.length := by
    unfold regionStart
    split
    · exact List.indexOf_lt_length.2 (by assumption)
    · exact hl
  unfold get_regions
  set s := regionStart region l with hsdef
  have hsplit : l.length = (l.length - s) + s := by omega
  rw [hsplit, regionsLoop_append l hl (l.length - s) s s hs]
  have h1 : regionsLoop l s (l.length - s) = (l.drop s).take (l.length - s) := by
    exact regionsLoop_no_wrap l (l.length - s) s (by omega)
  have h2 : (s + (l.length - s)) % l.length = 0 := by
    have : s + (l.length - s) = l.length := by omega
    rw [this, Nat.mod_self]
  have h3 : regionsLoop l 0 s = l.take s := by
    have := regionsLoop_no_wrap l s 0 (by omega)
    simpa using this
  rw [h1, h2, h3]
  have h4 : (l.drop s).take (l.length - s) = l.drop s := by
    apply List.take_of_length_le
    simp
  rw [h4, List.rotate_eq_drop_append_take (le_of_lt hs)]

/-- **C2**: For every configured set of regions (given as the canonically
sorted list `l`) and every starting region `region`, `get_regions` returns
a permutation of `l` that starts at `region` (or at the first sorted region
when `region` is not among them), contains every configured region exactly
once with no repeats, and preserves the sorted cyclic order: the element at
offset `i` of the result is the element of `l` at index
`(i + regionStart) % |l|`, so each region is followed by its ring
successor.  `l` stands for the sorted tuple the source builds
(`tuple(sorted(...))`); as the regions are a set, `l` has no
duplicates, which is the hypothesis the ring properties use. -/
theorem get_regions_ring_complete (region : String) (l : List String)
    (hne : l ≠ []) (hnd : l.Nodup) :
    (get_regions region l).Perm l ∧
    (get_regions region l).Nodup ∧
    (region ∈ l → (get_regions region l).head? = some region) ∧
    (region ∉ l → (get_regions region l).head? = l.head?) ∧
    ∀ i, i < l.length →
      (get_regions region l).getD i "" =
        l.getD ((i + regionStart region l) % l.length) "" := by
  have hl : 0 < l.length := List.length_pos.2 hne
  have hs : regionStart region l < l.length := by
    unfold regionStart
    split
    · exact List.indexOf_lt_length.2 (by assumption)
    · exact hl
  have hrot := get_regions_eq_rotate region l hne
  have hperm : (get_regions region l).Perm l := by
    rw [hrot]; exact List.rotate_perm l _
  refine ⟨hperm, ?_, ?_, ?_, ?_⟩
  · rw [hrot]; exact List.nodup_rotate.2 hnd
  · intro hmem
    rw [hrot]
    have hlen : 0 < (l.rotate (regionStart region l)).length := by
      rw [List.length_rotate]; exact hl
    rw [List.head?_eq_getElem?, List.getElem?_eq_getElem hlen]
    rw [List.getElem_rotate]
    have hidx : (0 + regionStart region l) % l.length = l.indexOf region := by
      simp only [Nat.zero_add, Nat.mod_eq_of_lt hs]
      unfold regionStart
      rw [if_pos hmem]
    congr 1
    · simp only [hidx]
      exact List.getElem_indexOf (List.indexOf_lt_length.2 hmem)
  · intro hmem
    rw [hrot]
    have hzero : regionStart region l = 0 := by
      unfold regionStart
      rw [if_neg hmem]
    rw [hzero, List.rotate_zero]
  · intro i hi
    rw [hrot]
    have hlen : i < (l.rotate (regionStart region l)).length := by
      rw [List.length_rotate]; exact hi
    have hmod : (i + regionStart region l) % l.length < l.length :=
      Nat.mod_lt _ hl
    rw [List.getD_eq_getElem _ _ hlen, List.getElem_rotate,
      List.getD_eq_getElem _ _ hmod]

/-- Witness for `get_regions_ring_complete` at a concrete sorted region
list with the start region present. -/
theorem get_regions_ring_complete_witness :
    (get_regions "us-east-1" ["eu-west-1", "us-east-1", "us-west-2"]).Perm
      ["eu-west-1", "us-east-1", "us-west-2"] ∧
    (get_regions "us-east-1" ["eu-west-1", "us-east-1", "us-west-2"]).Nodup := by
  have h := get_regions_ring_complete "us-east-1"
    ["eu-west-1", "us-east-1", "us-west-2"] (by decide)
    (by decide)
  exact ⟨h.1, h.2.1⟩

/-! ## IP resolver and certificate freshness
(`user_ip.py`, `client.py` lines 532-541)

Times are integers (seconds).  The cache keys touched by this cluster
are modelled as a record; `Option` distinguishes a missing key
(`BlessCache.get` returns `None`).  `fetchResults` gives, per configured
`ip_urls` entry, what `_fetchIP` would produce for it (`none` for any
failure, since `_fetchIP` catches all exceptions and returns `None`);
each consulted entry is one network round trip. -/

structure IPCacheM where
  certip : Option String
  bastion_ips : Option String
  lastip : Option String
  lastipchecktime : Option Int
deriving DecidableEq, Repr

structure UserIPState where
  fresh : Bool
  currentIP : Option String
deriving DecidableEq, Repr

/-- Side-effect counters: network round trips, `cache.set` calls,
`cache.save` calls. -/
structure Effects where
  netRequests : Nat
  cacheSets : Nat
  cacheSaves : Nat
deriving DecidableEq, Repr

def noEffects : Effects := ⟨0, 0, 0⟩

/-- Python truthiness of an optional IP string: `None` and `''` are
falsy. -/
def truthyIP : Option String → Bool
  | none => false
  | some s => s ≠ ""

/-- The `for url in self.ip_urls` loop of `_refreshIP`: checks `if ip:`
before each fetch, so it stops after the first truthy result; returns
the final `ip` value and the number of fetches (network requests)
performed. -/
def fetchLoop : List (Option String) → Option String × Nat
  | [] => (none, 0)
  | r :: rs =>
    if truthyIP r then (r, 1)
    else
      let p := fetchLoop rs
      (p.1, p.2 + 1)

/-- `UserIP._refreshIP`: run the fetch loop; `if not ip: raise` is
modelled as `none`; on success set `currentIP`/`fresh`, write `lastip`
and `lastipchecktime` to the cache and save it. -/
def refreshIP (c : IPCacheM) (now : Int)
    (fetchResults : List (Option String)) :
    Option (String × UserIPState × IPCacheM × Effects) :=
  match fetchLoop fetchResults with
  | (some ip, n) =>
    if ip = "" then none
    else
      some (ip, ⟨true, some ip⟩,
        { c with lastip := some ip, lastipchecktime := some now },
        ⟨n, 2, 1⟩)
  | (none, _) => none

/-- `UserIP.getIP`: return `currentIP` when `self.fresh and
self.currentIP` is truthy; otherwise return the cached `lastip` when
`lastipchecktime` is truthy (non-zero) and within `maxcachetime` of
`now`; otherwise refresh.  The returned value is whatever Python
returns, which in the cached branch may be `None` (`lastip` missing). -/
def getIP (st : UserIPState) (c : IPCacheM) (now maxcachetime : Int)
    (fetchResults : List (Option String)) :
    Option (Option String × UserIPState × IPCacheM × Effects) :=
  if st.fresh && truthyIP st.currentIP then
    some (st.currentIP, st, c, noEffects)
  else
    match c.lastipchecktime with
    | some t =>
      if t ≠ 0 ∧ t + maxcachetime > now then some (c.lastip, st, c, noEffects)
      else
        (refreshIP c now fetchResults).map
          (fun r => (some r.1, r.2.1, r.2.2.1, r.2.2.2))
    | none =>
      (refreshIP c now fetchResults).map
        (fun r => (some r.1, r.2.1, r.2.2.1, r.2.2.2))

/-- `check_fresh_cert(cert_file, blessconfig, bless_cache, userIP,
ip_list)` (client.py lines 532-541).  `fileExists` is
`os.path.isfile(cert_file)`, `now - mtime` is
`time.time() - os.path.getmtime(cert_file)`.  The `or` on line 536
short-circuits, so `userIP.getIP()` runs only when the certificate age
is at least `ipcachelifetime`; an exception escaping `getIP` is
propagated (`none`). -/
def check_fresh_cert (fileExists : Bool) (mtime now : Int)
    (certlifetime ipcachelifetime : Int) (c : IPCacheM) (st : UserIPState)
    (maxcachetime : Int) (fetchResults : List (Option String))
    (ip_list : Option String) :
    Option (Bool × UserIPState × IPCacheM × Effects) :=
  if fileExists then
    let certlife := now - mtime
    if certlife < certlifetime - 15 then
      if certlife < ipcachelifetime then
        if ip_list = none ∨ ip_list = c.bastion_ips then
          some (true, st, c, noEffects)
        else some (false, st, c, noEffects)
      else
        match getIP st c now maxcachetime fetchResults with
        | none => none
        | some (v, st', c', e) =>
          if c.certip = v then
            if ip_list = none ∨ ip_list = c'.bastion_ips then
              some (true, st', c', e)
            else some (false, st', c', e)
          else some (false, st', c', e)
    else some (false, st, c, noEffects)
  else some (false, st, c, noEffects)

theorem refreshIP_preserves (c : IPCacheM) (now : Int)
    (fetchResults : List (Option String)) (ip : String) (st' : UserIPState)
    (c' : IPCacheM) (e : Effects)
    (h : refreshIP c now fetchResults = some (ip, st', c', e)) :
    c'.certip = c.certip ∧ c'.bastion_ips = c.bastion_ips := by
  unfold refreshIP at h
  rcases hf : fetchLoop fetchResults with ⟨r, n⟩
  rw [hf] at h
  cases r with
  | none => simp at h
  | some s =>
    by_cases hs : s = ""
    · simp [hs] at h
    · simp [hs] at h
      rcases h with ⟨-, -, hc, -⟩
      rw [← hc]
      exact ⟨rfl, rfl⟩

theorem getIP_preserves (st : UserIPState) (c : IPCacheM)
    (now maxcachetime : Int) (fetchResults : List (Option String))
    (v : Option String) (st' : UserIPState) (c' : IPCacheM) (e : Effects)
    (h : getIP st c now maxcachetime fetchResults = some (v, st', c', e)) :
    c'.certip = c.certip ∧ c'.bastion_ips = c.bastion_ips := by
  unfold getIP at h
  split at h
  · simp at h
    rcases h with ⟨-, -, hc, -⟩
    rw [← hc]
    exact ⟨rfl, rfl⟩
  · split at h
    next t _ =>
      split at h
      · simp at h
        rcases h with ⟨-, -, hc, -⟩
        rw [← hc]
        exact ⟨rfl, rfl⟩
      · rcases hr : refreshIP c now fetchResults with - | ⟨ip, st'', c'', e''⟩
        · rw [hr] at h; simp at h
        · rw [hr] at h; simp at h
          rcases h with ⟨-, -, hc, -⟩
          rw [← hc]
          exact refreshIP_preserves c now fetchResults ip st'' c'' e'' hr
    next =>
      rcases hr : refreshIP c now fetchResults with - | ⟨ip, st'', c'', e''⟩
      · rw [hr] at h; simp at h
      · rw [hr] at h; simp at h
        rcases h with ⟨-, -, hc, -⟩
        rw [← hc]
        exact refreshIP_preserves c now fetchResults ip st'' c'' e'' hr

theorem getIP_cache_hit (st : UserIPState) (c : IPCacheM)
    (now maxcachetime : Int) (fetchResults : List (Option String))
    (hcond : (st.fresh && truthyIP st.currentIP) = true ∨
      ∃ t, c.lastipchecktime = some t ∧ t ≠ 0 ∧ t + maxcachetime > now) :
    ∃ v, getIP st c now maxcachetime fetchResults = some (v, st, c, noEffects) := by
  rcases hcond with hfresh | ⟨t, ht, ht0, htw⟩
  · exact ⟨st.currentIP, by simp [getIP, hfresh]⟩
  · by_cases hfresh : (st.fresh && truthyIP st.currentIP) = true
    · exact ⟨st.currentIP, by simp [getIP, hfresh]⟩
    · exact ⟨c.lastip, by simp [getIP, hfresh, ht, ht0, htw]⟩

/-- **C1**: on every run of `check_fresh_cert` that returns (no exception
escapes `getIP`), the result is `true` if and only if: the certificate
file exists; its age `now - mtime` is strictly below `certlifetime - 15`;
either that age is strictly below `ipcachelifetime` or the cached
`'certip'` equals the IP `userIP.getIP()` yields; and the supplied
bastion list is either absent (`None`) or equals the cached
`'bastion_ips'` value.  In every other case it returns `false`. -/
theorem check_fresh_cert_true_iff (fileExists : Bool)
    (mtime now certlifetime ipcachelifetime : Int) (c : IPCacheM)
    (st : UserIPState) (maxcachetime : Int)
    (fetchResults : List (Option String)) (ip_list : Option String)
    (out : Bool × UserIPState × IPCacheM × Effects)
    (h : check_fresh_cert fileExists mtime now certlifetime ipcachelifetime
      c st maxcachetime fetchResults ip_list = some out) :
    out.1 = true ↔
      (fileExists = true ∧ now - mtime < certlifetime - 15 ∧
        (now - mtime < ipcachelifetime ∨
          ∃ v st' c' e,
            getIP st c now maxcachetime fetchResults = some (v, st', c', e) ∧
            c.certip = v) ∧
        (ip_list = none ∨ ip_list = c.bastion_ips)) := by
  by_cases hf : fileExists = true
  · by_cases h1 : now - mtime < certlifetime - 15
    · by_cases h2 : now - mtime < ipcachelifetime
      · by_cases hb : ip_list = none ∨ ip_list = c.bastion_ips
        · have ht : check_fresh_cert fileExists mtime now certlifetime
              ipcachelifetime c st maxcachetime fetchResults ip_list =
              some (true, st, c, noEffects) := by
            simp [check_fresh_cert, hf, h1, h2, hb]
          rw [ht] at h
          rcases Option.some.inj h with rfl
          simp only [true_iff]
          exact ⟨hf, h1, Or.inl h2, hb⟩
        · have ht : check_fresh_cert fileExists mtime now certlifetime
              ipcachelifetime c st maxcachetime fetchResults ip_list =
              some (false, st, c, noEffects) := by
            simp [check_fresh_cert, hf, h1, h2, hb]
          rw [ht] at h
          rcases Option.some.inj h with rfl
          simp only [Bool.false_eq_true, false_iff]
          rintro ⟨-, -, -, hbc⟩
          exact hb hbc
      · rcases hg : getIP st c now maxcachetime fetchResults with - |
          ⟨v, st'', c'', e''⟩
        · have ht : check_fresh_cert fileExists mtime now certlifetime
              ipcachelifetime c st maxcachetime fetchResults ip_list = none := by
            simp [check_fresh_cert, hf, h1, h2, hg]
          rw [ht] at h
          exact absurd h (by simp)
        · have hpres := getIP_preserves st c now maxcachetime fetchResults
            v st'' c'' e'' hg
          by_cases hcip : c.certip = v
          · by_cases hb' : ip_list = none ∨ ip_list = c''.bastion_ips
            · have ht : check_fresh_cert fileExists mtime now certlifetime
                  ipcachelifetime c st maxcachetime fetchResults ip_list =
                  some (true, st'', c'', e'') := by
                simp [check_fresh_cert, hf, h1, h2, hg, hcip, hb']
              rw [ht] at h
              rcases Option.some.inj h with rfl
              simp only [true_iff]
              refine ⟨hf, h1, Or.inr ⟨v, st'', c'', e'', rfl, hcip⟩, ?_⟩
              rw [← hpres.2]
              exact hb'
            · have ht : check_fresh_cert fileExists mtime now certlifetime
                  ipcachelifetime c st maxcachetime fetchResults ip_list =
                  some (false, st'', c'', e'') := by
                simp [check_fresh_cert, hf, h1, h2, hg, hcip, hb']
              rw [ht] at h
              rcases Option.some.inj h with rfl
              simp only [Bool.false_eq_true, false_iff]
              rintro ⟨-, -, -, hbc⟩
              rw [← hpres.2] at hbc
              exact hb' hbc
          · have ht : check_fresh_cert fileExists mtime now certlifetime
                ipcachelifetime c st maxcachetime fetchResults ip_list =
                some (false, st'', c'', e'') := by
              simp [check_fresh_cert, hf, h1, h2, hg, hcip]
            rw [ht] at h
            rcases Option.some.inj h with rfl
            simp only [Bool.false_eq_true, false_iff]
            rintro ⟨-, -, hor, -⟩
            rcases hor with hip | ⟨v', st', c', e', hg', hcip'⟩
            · exact h2 hip
            · have hv : v' = v :=
                (congrArg Prod.fst (Option.some.inj hg')).symm
              exact hcip (hv ▸ hcip')
    · have ht : check_fresh_cert fileExists mtime now certlifetime
          ipcachelifetime c st maxcachetime fetchResults ip_list =
          some (false, st, c, noEffects) := by
        simp [check_fresh_cert, hf, h1]
      rw [ht] at h
      rcases Option.some.inj h with rfl
      simp only [Bool.false_eq_true, false_iff]
      rintro ⟨-, h1', -⟩
      exact h1 h1'
  · have ht : check_fresh_cert fileExists mtime now certlifetime
        ipcachelifetime c st maxcachetime fetchResults ip_list =
        some (false, st, c, noEffects) := by
      simp only [check_fresh_cert]
      rw [if_neg (by simpa using hf)]
    rw [ht] at h
    rcases Option.some.inj h with rfl
    simp only [Bool.false_eq_true, false_iff]
    rintro ⟨hf', -⟩
    exact hf hf'

/-- Witness for `check_fresh_cert_true_iff`: a young certificate, a
matching bastion list, evaluated concretely. -/
theorem check_fresh_cert_true_iff_witness :
    check_fresh_cert true 0 10 100 50 ⟨none, some "10.0.0.1", none, none⟩
        ⟨false, none⟩ 0 [] (some "10.0.0.1") =
      some (true, ⟨false, none⟩, ⟨none, some "10.0.0.1", none, none⟩,
        noEffects) ∧
    (true = true ↔
      (true = true ∧ (10 : Int) - 0 < 100 - 15 ∧
        ((10 : Int) - 0 < 50 ∨
          ∃ v st' c' e,
            getIP ⟨false, none⟩ ⟨none, some "10.0.0.1", none, none⟩ 10 0 [] =
              some (v, st', c', e) ∧
            (⟨none, some "10.0.0.1", none, none⟩ : IPCacheM).certip = v) ∧
        ((some "10.0.0.1" : Option String) = none ∨
          (some "10.0.0.1" : Option String) =
            (⟨none, some "10.0.0.1", none, none⟩ : IPCacheM).bastion_ips))) := by
  have hc : check_fresh_cert true 0 10 100 50
      ⟨none, some "10.0.0.1", none, none⟩ ⟨false, none⟩ 0 [] (some "10.0.0.1") =
      some (true, ⟨false, none⟩, ⟨none, some "10.0.0.1", none, none⟩,
        noEffects) := by decide
  exact ⟨hc, check_fresh_cert_true_iff true 0 10 100 50
    ⟨none, some "10.0.0.1", none, none⟩ ⟨false, none⟩ 0 [] (some "10.0.0.1")
    (true, ⟨false, none⟩, ⟨none, some "10.0.0.1", none, none⟩, noEffects) hc⟩

/-- **C5 counterexample**: `check_fresh_cert` is NOT side-effect free.
With an existing certificate whose age (100s) is below
`certlifetime - 15` but at least `ipcachelifetime`, a non-fresh
`UserIP` and no cached IP record, the embedded `userIP.getIP()` call
refreshes: one network request is issued and the cache is written
(`lastip`, `lastipchecktime`) and saved, refuting "the cache contents
are left unchanged and no network request is issued, regardless of the
certificate file's age [and] the cached IP record's age". -/
theorem check_fresh_cert_side_effects_counterexample :
    check_fresh_cert true 0 100 1000 50 ⟨some "1.2.3.4", none, none, none⟩
        ⟨false, none⟩ 50 [some "1.2.3.4"] none =
      some (true, ⟨true, some "1.2.3.4"⟩,
        ⟨some "1.2.3.4", none, some "1.2.3.4", some 100⟩, ⟨1, 2, 1⟩) ∧
    (⟨some "1.2.3.4", none, some "1.2.3.4", some 100⟩ : IPCacheM) ≠
      ⟨some "1.2.3.4", none, none, none⟩ ∧
    (⟨1, 2, 1⟩ : Effects).netRequests ≠ 0 ∧
    (⟨1, 2, 1⟩ : Effects).cacheSets ≠ 0 ∧
    (⟨1, 2, 1⟩ : Effects).cacheSaves ≠ 0 := by decide

/-- **C5 amended**: `check_fresh_cert` never writes the `certip` or
`bastion_ips` cache entries, and it is free of network requests and
cache writes in every case EXCEPT the one its `userIP.getIP()` call
forces: when the file exists, its age is within `certlifetime - 15` but
at least `ipcachelifetime`, the `UserIP` object is not already fresh,
and the cached IP record is absent or stale, `getIP` refreshes the IP
(network requests plus `lastip`/`lastipchecktime` cache writes and a
save).  Whenever the file is missing, or too old, or younger than
`ipcachelifetime`, or the IP is available without a refresh, the call
has no side effects at all. -/
theorem check_fresh_cert_frame_amended (fileExists : Bool)
    (mtime now certlifetime ipcachelifetime : Int) (c : IPCacheM)
    (st : UserIPState) (maxcachetime : Int)
    (fetchResults : List (Option String)) (ip_list : Option String)
    (b : Bool) (st' : UserIPState) (c' : IPCacheM) (e : Effects)
    (h : check_fresh_cert fileExists mtime now certlifetime ipcachelifetime
      c st maxcachetime fetchResults ip_list = some (b, st', c', e)) :
    (c'.certip = c.certip ∧ c'.bastion_ips = c.bastion_ips) ∧
    ((fileExists = false ∨ ¬(now - mtime < certlifetime - 15) ∨
        now - mtime < ipcachelifetime ∨
        (st.fresh && truthyIP st.currentIP) = true ∨
        (∃ t, c.lastipchecktime = some t ∧ t ≠ 0 ∧ t + maxcachetime > now)) →
      st' = st ∧ c' = c ∧ e = noEffects) := by
  by_cases hf : fileExists = true
  · by_cases h1 : now - mtime < certlifetime - 15
    · by_cases h2 : now - mtime < ipcachelifetime
      · by_cases hb : ip_list = none ∨ ip_list = c.bastion_ips
        · have ht : check_fresh_cert fileExists mtime now certlifetime
              ipcachelifetime c st maxcachetime fetchResults ip_list =
              some (true, st, c, noEffects) := by
            simp [check_fresh_cert, hf, h1, h2, hb]
          rw [ht] at h
          rcases Option.some.inj h with ⟨-, rfl, rfl, rfl⟩
          exact ⟨⟨rfl, rfl⟩, fun _ => ⟨rfl, rfl, rfl⟩⟩
        · have ht : check_fresh_cert fileExists mtime now certlifetime
              ipcachelifetime c st maxcachetime fetchResults ip_list =
              some (false, st, c, noEffects) := by
            simp [check_fresh_cert, hf, h1, h2, hb]
          rw [ht] at h
          rcases Option.some.inj h with ⟨-, rfl, rfl, rfl⟩
          exact ⟨⟨rfl, rfl⟩, fun _ => ⟨rfl, rfl, rfl⟩⟩
      · rcases hg : getIP st c now maxcachetime fetchResults with - |
          ⟨v, st'', c'', e''⟩
        · have ht : check_fresh_cert fileExists mtime now certlifetime
              ipcachelifetime c st maxcachetime fetchResults ip_list =
              none := by
            simp [check_fresh_cert, hf, h1, h2, hg]
          rw [ht] at h
          exact absurd h (by simp)
        · have hpres := getIP_preserves st c now maxcachetime fetchResults
            v st'' c'' e'' hg
          have hout : st' = st'' ∧ c' = c'' ∧ e = e'' := by
            have ht : check_fresh_cert fileExists mtime now certlifetime
                ipcachelifetime c st maxcachetime fetchResults ip_list =
                some ((decide (c.certip = v) &&
                    decide (ip_list = none ∨ ip_list = c''.bastion_ips)),
                  st'', c'', e'') := by
              by_cases hcip : c.certip = v
              · by_cases hb' : ip_list = none ∨ ip_list = c''.bastion_ips
                · simp [check_fresh_cert, hf, h1, h2, hg, hcip, hb']
                · simp [check_fresh_cert, hf, h1, h2, hg, hcip, hb']
              · simp [check_fresh_cert, hf, h1, h2, hg, hcip]
            rw [ht] at h
            rcases Option.some.inj h with ⟨-, rfl, rfl, rfl⟩
            exact ⟨rfl, rfl, rfl⟩
          rcases hout with ⟨rfl, rfl, rfl⟩
          refine ⟨⟨hpres.1, hpres.2⟩, ?_⟩
          rintro (hfe | hc1 | hc2 | hhit | hhit)
          · rw [hf] at hfe; exact absurd hfe (by simp)
          · exact absurd h1 hc1
          · exact absurd hc2 h2
          · rcases getIP_cache_hit st c now maxcachetime fetchResults
              (Or.inl hhit) with ⟨v', hv'⟩
            rw [hg] at hv'
            rcases Option.some.inj hv' with ⟨-, rfl, rfl, rfl⟩
            exact ⟨rfl, rfl, rfl⟩
          · rcases getIP_cache_hit st c now maxcachetime fetchResults
              (Or.inr hhit) with ⟨v', hv'⟩
            rw [hg] at hv'
            rcases Option.some.inj hv' with ⟨-, rfl, rfl, rfl⟩
            exact ⟨rfl, rfl, rfl⟩
    · have ht : check_fresh_cert fileExists mtime now certlifetime
          ipcachelifetime c st maxcachetime fetchResults ip_list =
          some (false, st, c, noEffects) := by
        simp [check_fresh_cert, hf, h1]
      rw [ht] at h
      rcases Option.some.inj h with ⟨-, rfl, rfl, rfl⟩
      exact ⟨⟨rfl, rfl⟩, fun _ => ⟨rfl, rfl, rfl⟩⟩
  · have ht : check_fresh_cert fileExists mtime now certlifetime
        ipcachelifetime c st maxcachetime fetchResults ip_list =
        some (false, st, c, noEffects) := by
      simp only [check_fresh_cert]
      rw [if_neg (by simpa using hf)]
    rw [ht] at h
    rcases Option.some.inj h with ⟨-, rfl, rfl, rfl⟩
    exact ⟨⟨rfl, rfl⟩, fun _ => ⟨rfl, rfl, rfl⟩⟩

/-- Witness for `check_fresh_cert_frame_amended`: a run whose age is
below `ipcachelifetime`, evaluated concretely; no side effects. -/
theorem check_fresh_cert_frame_amended_witness :
    check_fresh_cert true 0 10 100 50 ⟨none, none, none, none⟩
        ⟨false, none⟩ 0 [] none =
      some (true, ⟨false, none⟩, ⟨none, none, none, none⟩, noEffects) ∧
    ((⟨none, none, none, none⟩ : IPCacheM).certip =
        (⟨none, none, none, none⟩ : IPCacheM).certip ∧
      (⟨false, none⟩ : UserIPState) = ⟨false, none⟩ ∧
      (⟨none, none, none, none⟩ : IPCacheM) = ⟨none, none, none, none⟩ ∧
      noEffects = noEffects) := by
  have hc : check_fresh_cert true 0 10 100 50 ⟨none, none, none, none⟩
      ⟨false, none⟩ 0 [] none =
      some (true, ⟨false, none⟩, ⟨none, none, none, none⟩, noEffects) := by
    decide
  have h := check_fresh_cert_frame_amended true 0 10 100 50
    ⟨none, none, none, none⟩ ⟨false, none⟩ 0 [] none true ⟨false, none⟩
    ⟨none, none, none, none⟩ noEffects hc
  have h2 := h.2 (Or.inr (Or.inr (Or.inl (by decide))))
  exact ⟨hc, h.1.1, h2.1, h2.2.1, h2.2.2⟩

/-! ## Signing-response classification (`bless`, client.py lines 996-1020;
`clear_kmsauth_token_cache`, lines 317-324; `main`, lines 1095-1124)

The raw signing response `cert` is a string; `json.loads(cert)` is
modelled by the `parsed` argument: `none` when the response is
unparsable JSON (`json.loads` raises, and nothing in `bless` or `main`
catches it), `some obj` when it parses, `obj.errorType?` being the
`errorType` member if present.  The kmsauth token cache is an
association list keyed by cache key, with an in-memory view and a
persisted (`save`d) view. -/

structure JsonObj where
  errorType? : Option String
deriving DecidableEq, Repr

/-- A cached kmsauth entry: the `token` value (`None` allowed) and the
`Expiration` value when the key is present. -/
structure KmsEntry where
  token : Option String
  expiration? : Option String
deriving DecidableEq, Repr

structure BlessCacheKms where
  mem : List (String × KmsEntry)
  disk : List (String × KmsEntry)
deriving DecidableEq

/-- `BlessCache.set`: in-memory only. -/
def cacheSetKms (c : BlessCacheKms) (k : String) (v : KmsEntry) :
    BlessCacheKms :=
  { c with mem := (k, v) :: c.mem }

/-- `BlessCache.save`: persist the in-memory view. -/
def cacheSaveKms (c : BlessCacheKms) : BlessCacheKms :=
  { c with disk := c.mem }

/-- `clear_kmsauth_token_cache(config, cache)`: overwrite the
`'kmsauth-<region>'` entry with a null token and the past expiration
`'20160101T000000Z'`, then save. -/
def clear_kmsauth_token_cache (awsregion : String) (c : BlessCacheKms) :
    BlessCacheKms :=
  cacheSaveKms (cacheSetKms c ("kmsauth-" ++ awsregion)
    ⟨none, some "20160101T000000Z"⟩)

/-- The 29-character magic marker `'ssh-rsa-cert-v01@openssh.com '`. -/
def certMagic : String := "ssh-rsa-cert-v01@openssh.com "

inductive SignOutcome where
  /-- `cert` is returned and installed. -/
  | certOk (cert : String)
  /-- `raise LambdaInvocationException(msg)`: caught by `main`'s region
  loop (soft, retryable). -/
  | raiseLambdaInvocation (msg : String)
  /-- `raise Exception(msg)`: not caught by `main`'s region loop. -/
  | raiseFatal (msg : String)
  /-- `json.loads` raised: not caught anywhere. -/
  | raiseJsonDecode
deriving DecidableEq, Repr

/-- The response-handling tail of `bless` (client.py lines 996-1020):
check the magic marker, otherwise parse as JSON and dispatch on
`errorType`, purging the kmsauth token cache for the attempted region
only in the `KMSAuthValidationError`-and-`nocache is False` case. -/
def blessTail (cert : String) (parsed : Option JsonObj) (nocache : Bool)
    (awsregion : String) (c : BlessCacheKms) : BlessCacheKms × SignOutcome :=
  if cert.take 29 = certMagic then (c, .certOk cert)
  else
    match parsed with
    | none => (c, .raiseJsonDecode)
    | some em =>
      if em.errorType? = some "KMSAuthValidationError" ∧ nocache = false then
        (clear_kmsauth_token_cache awsregion c,
          .raiseLambdaInvocation "KMSAuth validation error")
      else if em.errorType? = some "ClientError" then
        (c, .raiseLambdaInvocation
          "The BLESS lambda experienced a client error. Consider trying in a different region.")
      else if em.errorType? = some "InputValidationError" then
        (c, .raiseFatal
          "The input to the BLESS lambda is invalid. Please update your blessclient by running `make update` in the bless folder.")
      else
        (c, .raiseLambdaInvocation
          ("BLESS client did not recieve a valid cert. Instead got: " ++ cert))

/-- Which raised outcomes `main`'s region loop catches (client.py lines
1110-1119): `ClientError`, `LambdaInvocationException`,
`ConnectionError`, `EndpointConnectionError`.  A caught outcome makes
the loop advance to the next region; an uncaught one unwinds out of
`main`. -/
def main_catches_outcome : SignOutcome → Bool
  | .raiseLambdaInvocation _ => true
  | _ => false

/-- `main` invokes the bless pipeline with the literal `True` for
`nocache` (client.py line 1104: `bless(region, True, args.gui, ...)`). -/
def main_bless_nocache : Bool := true

/-- The `if nocache is not True:` guard at client.py line 953: whether
`bless` runs `check_fresh_cert` at all. -/
def bless_checks_freshness (nocache : Bool) : Bool := !nocache

/-- **C3 counterexample**: a response without the magic marker that
parses to a JSON object whose `errorType` is none of the three known
values does NOT raise a fatal, non-retryable error: `bless` raises
`LambdaInvocationException`, which `main`'s region loop catches, so the
next region in the ring IS attempted.  The input is the valid-JSON
response string `\x7b"errorType": "SomeOtherError"\x7d`, for which
`json.loads` yields exactly the object with `errorType`
`'SomeOtherError'` given as `parsed`. -/
theorem bless_unrecognized_response_counterexample :
    blessTail "\x7b\"errorType\": \"SomeOtherError\"\x7d"
        (some ⟨some "SomeOtherError"⟩) false "us-east-1" ⟨[], []⟩ =
      (⟨[], []⟩, .raiseLambdaInvocation
        ("BLESS client did not recieve a valid cert. Instead got: " ++
          "\x7b\"errorType\": \"SomeOtherError\"\x7d")) ∧
    main_catches_outcome (.raiseLambdaInvocation
      ("BLESS client did not recieve a valid cert. Instead got: " ++
        "\x7b\"errorType\": \"SomeOtherError\"\x7d")) = true := by
  constructor
  · rfl
  · rfl

/-- **C3 amended**: when a signing response does not begin with the
magic marker, then (a) if it is unparsable as JSON the decode error
propagates uncaught past `main`'s region loop and terminates the run,
and (b) if it parses to an object whose `errorType` is none of
`KMSAuthValidationError`, `ClientError`, `InputValidationError`, the
client raises a retryable `LambdaInvocationException` whose message
includes the raw response, which `main`'s region loop catches, so the
run advances to the next region in the ring instead of terminating. -/
theorem bless_unrecognized_response_amended (cert : String)
    (parsed : Option JsonObj) (nocache : Bool) (awsregion : String)
    (c : BlessCacheKms) (hm : cert.take 29 ≠ certMagic) :
    (parsed = none →
      blessTail cert parsed nocache awsregion c = (c, .raiseJsonDecode) ∧
      main_catches_outcome .raiseJsonDecode = false) ∧
    (∀ em, parsed = some em →
      em.errorType? ≠ some "KMSAuthValidationError" →
      em.errorType? ≠ some "ClientError" →
      em.errorType? ≠ some "InputValidationError" →
      blessTail cert parsed nocache awsregion c =
        (c, .raiseLambdaInvocation
          ("BLESS client did not recieve a valid cert. Instead got: " ++ cert)) ∧
      main_catches_outcome (.raiseLambdaInvocation
        ("BLESS client did not recieve a valid cert. Instead got: " ++ cert)) =
        true) := by
  constructor
  · rintro rfl
    exact ⟨by simp [blessTail, hm], rfl⟩
  · rintro em rfl h1 h2 h3
    refine ⟨?_, rfl⟩
    simp only [blessTail, if_neg hm]
    rw [if_neg (by rintro ⟨h, -⟩; exact h1 h), if_neg h2, if_neg h3]

/-- Witness for `bless_unrecognized_response_amended`: both branches at
concrete realizable inputs.  `json.loads("bad json")` raises
(`parsed = none`), and `json.loads` of the valid-JSON response
`\x7b"errorType": "Whatever"\x7d` yields exactly the object with
`errorType` `'Whatever'` given as `parsed`. -/
theorem bless_unrecognized_response_amended_witness :
    (blessTail "bad json" none true "eu-west-1" ⟨[], []⟩ =
        (⟨[], []⟩, .raiseJsonDecode) ∧
      main_catches_outcome .raiseJsonDecode = false) ∧
    (blessTail "\x7b\"errorType\": \"Whatever\"\x7d"
        (some ⟨some "Whatever"⟩) true "eu-west-1" ⟨[], []⟩ =
        (⟨[], []⟩, .raiseLambdaInvocation
          ("BLESS client did not recieve a valid cert. Instead got: " ++
            "\x7b\"errorType\": \"Whatever\"\x7d")) ∧
      main_catches_outcome (.raiseLambdaInvocation
        ("BLESS client did not recieve a valid cert. Instead got: " ++
          "\x7b\"errorType\": \"Whatever\"\x7d")) = true) := by
  constructor
  · exact (bless_unrecognized_response_amended "bad json" none true
      "eu-west-1" ⟨[], []⟩ (by decide)).1 rfl
  · exact (bless_unrecognized_response_amended
      "\x7b\"errorType\": \"Whatever\"\x7d" (some ⟨some "Whatever"⟩)
      true "eu-west-1" ⟨[], []⟩ (by decide)).2 ⟨some "Whatever"⟩ rfl
      (by decide) (by decide) (by decide)

/-- **C4**: on a `KMSAuthValidationError` signing response, when
`nocache` is `False` the client overwrites the `'kmsauth-<region>'`
cache entry with a null token and the past expiration
`'20160101T000000Z'`, persists it, and raises the retryable
`LambdaInvocationException('KMSAuth validation error')`; when the run is
a no-cache run (`nocache` is `True`) the cache is left untouched (no
purge occurs). -/
theorem bless_kmsauth_purge (cert : String) (parsed : Option JsonObj)
    (em : JsonObj) (awsregion : String) (c : BlessCacheKms)
    (hm : cert.take 29 ≠ certMagic) (hp : parsed = some em)
    (het : em.errorType? = some "KMSAuthValidationError") :
    (blessTail cert parsed false awsregion c =
      (clear_kmsauth_token_cache awsregion c,
        .raiseLambdaInvocation "KMSAuth validation error") ∧
      (clear_kmsauth_token_cache awsregion c).mem.lookup
        ("kmsauth-" ++ awsregion) = some ⟨none, some "20160101T000000Z"⟩ ∧
      (clear_kmsauth_token_cache awsregion c).disk.lookup
        ("kmsauth-" ++ awsregion) = some ⟨none, some "20160101T000000Z"⟩) ∧
    (blessTail cert parsed true awsregion c).1 = c := by
  subst hp
  refine ⟨⟨?_, ?_, ?_⟩, ?_⟩
  · simp [blessTail, hm, het]
  · simp [clear_kmsauth_token_cache, cacheSaveKms, cacheSetKms, List.lookup]
  · simp [clear_kmsauth_token_cache, cacheSaveKms, cacheSetKms, List.lookup]
  · simp only [blessTail, if_neg hm]
    rw [if_neg (by rintro ⟨-, h⟩; exact Bool.noConfusion h)]
    by_cases h2 : em.errorType? = some "ClientError"
    · rw [if_pos h2]
    · rw [if_neg h2]
      by_cases h3 : em.errorType? = some "InputValidationError"
      · rw [if_pos h3]
      · rw [if_neg h3]

/-- Witness for `bless_kmsauth_purge` at a concrete response and cache. -/
theorem bless_kmsauth_purge_witness :
    blessTail "auth rejected" (some ⟨some "KMSAuthValidationError"⟩) false
        "us-east-1" ⟨[], []⟩ =
      (clear_kmsauth_token_cache "us-east-1" ⟨[], []⟩,
        .raiseLambdaInvocation "KMSAuth validation error") ∧
    (blessTail "auth rejected" (some ⟨some "KMSAuthValidationError"⟩) true
      "us-east-1" ⟨[], []⟩).1 = (⟨[], []⟩ : BlessCacheKms) := by
  have h := bless_kmsauth_purge "auth rejected"
    (some ⟨some "KMSAuthValidationError"⟩) ⟨some "KMSAuthValidationError"⟩
    "us-east-1" ⟨[], []⟩ (by decide) rfl rfl
  exact ⟨h.1.1, h.2⟩

/-- **C10**: through `main` with the `'bless'` CA backend, the pipeline
is always invoked with `nocache=True`; therefore the
`check_fresh_cert` short-circuit guard is never taken (a signing request
is always attempted), and the `KMSAuthValidationError` token-purge
branch of the response handler never fires: for every response the
kmsauth token cache is returned unchanged. -/
theorem main_bless_always_nocache :
    main_bless_nocache = true ∧
    bless_checks_freshness main_bless_nocache = false ∧
    (∀ cert em awsregion c,
      (blessTail cert (some em) main_bless_nocache awsregion c).1 = c) ∧
    (∀ cert awsregion c,
      (blessTail cert none main_bless_nocache awsregion c).1 = c) := by
  refine ⟨rfl, rfl, ?_, ?_⟩
  · intro cert em awsregion c
    by_cases hm : cert.take 29 = certMagic
    · simp [blessTail, hm]
    · simp only [blessTail, if_neg hm]
      rw [if_neg (by rintro ⟨-, h⟩; exact Bool.noConfusion h)]
      by_cases h2 : em.errorType? = some "ClientError"
      · rw [if_pos h2]
      · rw [if_neg h2]
        by_cases h3 : em.errorType? = some "InputValidationError"
        · rw [if_pos h3]
        · rw [if_neg h3]
  · intro cert awsregion c
    by_cases hm : cert.take 29 = certMagic
    · simp [blessTail, hm]
    · simp [blessTail, hm]

/-! ## Cached role credentials and kmsauth tokens
(`uncache_creds`, client.py lines 389-395; `get_blessrole_credentials`,
lines 213-263; `get_kmsauth_token`, lines 327-360)

A cached `'blessrole_creds'` value is a JSON object; only its
`Expiration` member and its Python truthiness (non-emptiness) matter to
the lookup, so it is modelled as the optional `Expiration` string plus
the list of its other keys.  `time.gmtime()` is `now`. -/

structure CredsDict where
  expiration? : Option String
  otherFields : List String
deriving DecidableEq, Repr

/-- Python truthiness of the dict: it is non-empty. -/
def dictTruthy (d : CredsDict) : Bool :=
  d.expiration?.isSome || !d.otherFields.isEmpty

inductive RoleLookup where
  /-- The cached credential is returned; no boto3 client is created and
  no network call happens. -/
  | cachedHit (d : CredsDict)
  /-- Fall through to `sts.assume_role` (a network role-assumption). -/
  | assumeRole
  /-- `role_creds['Expiration']` raised `KeyError`. -/
  | raiseKeyError
  /-- `time.strptime` raised `ValueError`. -/
  | raiseValueError
deriving DecidableEq, Repr

/-- The cache-lookup head of `get_blessrole_credentials` (client.py
lines 222-224) together with `uncache_creds` (lines 389-395):
`uncache_creds` parses `Expiration` only when the dict is truthy AND has
the key (raising `ValueError` on an unparsable value), and the caller
then evaluates `role_creds and role_creds['Expiration'] > time.gmtime()`
(raising `KeyError` when the truthy dict has no `Expiration` key). -/
def get_blessrole_credentials_lookup (cached : Option CredsDict)
    (now : StructTime) : RoleLookup :=
  match cached with
  | none => .assumeRole
  | some d =>
    match d.expiration? with
    | some s =>
      match parseTS s with
      | none => .raiseValueError
      | some t => if tsGt t now then .cachedHit d else .assumeRole
    | none => if dictTruthy d then .raiseKeyError else .assumeRole

/-- A cached `'kmsauth-<region>'` entry as consulted by
`get_kmsauth_token`.  The stored dict is non-empty (truthy) whenever
present; `token` is its `token` value and `expiration?` its
`Expiration` value when that key exists. -/
inductive KmsResult where
  /-- The cached token is returned; no minting happens. -/
  | cachedToken (t : String)
  /-- A token was minted; `entry` is the `'kmsauth-<region>'` cache
  entry after the call and `saved` whether `cache.save()` ran. -/
  | minted (t : String) (entry : Option KmsEntry) (saved : Bool)
  /-- `kmsauth.ServiceConnectionError` →
  `raise LambdaInvocationException(...)`. -/
  | raiseLambdaInvocation
  /-- `kmsauth_cache['Expiration']` raised `KeyError`. -/
  | raiseKeyError
  /-- `time.strptime` raised `ValueError`. -/
  | raiseValueError
deriving DecidableEq, Repr

/-- The minting tail of `get_kmsauth_token` (client.py lines 338-360):
`mint` is the `KMSTokenGenerator.get_token()` result (`none` for
`ServiceConnectionError`); the usable lifetime is
`60 - kmsauth.TOKEN_SKEW * 2` minutes, and the token is cached and
saved only when it is positive.  `nowMin` is `datetime.utcnow()` in
minutes and `fmtMin` its `strftime` rendering after adding the
lifetime. -/
def kmsMintTail (cached : Option KmsEntry) (nowMin skew : Int)
    (mint : Option String) (fmtMin : Int → String) : KmsResult :=
  match mint with
  | none => .raiseLambdaInvocation
  | some tok =>
    let lifetime : Int := 60 - skew * 2
    if 0 < lifetime then
      .minted tok (some ⟨some tok, some (fmtMin (nowMin + lifetime))⟩) true
    else
      .minted tok cached false

/-- `get_kmsauth_token(creds, config, username, cache)` (client.py lines
327-360) restricted to the `'kmsauth-<region>'` cache slot: return the
cached token when its expiration parses, lies strictly in the future
(struct_time comparison) and the token value is not `None`; otherwise
mint, caching per `kmsMintTail`. -/
def get_kmsauth_token_model (cached : Option KmsEntry) (nowT : StructTime)
    (nowMin skew : Int) (mint : Option String) (fmtMin : Int → String) :
    KmsResult :=
  match cached with
  | none => kmsMintTail cached nowMin skew mint fmtMin
  | some e =>
    match e.expiration? with
    | none => .raiseKeyError
    | some s =>
      match parseTS s with
      | none => .raiseValueError
      | some t =>
        if tsGt t nowT then
          match e.token with
          | some tok => .cachedToken tok
          | none => kmsMintTail cached nowMin skew mint fmtMin
        else kmsMintTail cached nowMin skew mint fmtMin

/-- Whether the `get_kmsauth_token` cache lookup misses (falls through
to minting) rather than hitting or raising. -/
def kmsLookupMiss (cached : Option KmsEntry) (nowT : StructTime) : Bool :=
  match cached with
  | none => true
  | some e =>
    match e.expiration? with
    | none => false
    | some s =>
      match parseTS s with
      | none => false
      | some t => if tsGt t nowT then e.token.isNone else true

/-- **C6**: `get_blessrole_credentials` returns the cached
`'blessrole_creds'` credential (with zero network calls) exactly when a
cached entry exists whose `Expiration` parses and is strictly greater
than the current time; and whenever the parsed expiration is not
strictly greater (it equals or precedes `now`), the entry is treated as
absent and the role-assumption path is taken. -/
theorem get_blessrole_credentials_cache_boundary (cached : Option CredsDict)
    (now : StructTime) :
    (∀ d, get_blessrole_credentials_lookup cached now = .cachedHit d ↔
      (cached = some d ∧ ∃ s t, d.expiration? = some s ∧
        parseTS s = some t ∧ tsGt t now = true)) ∧
    (∀ d s t, cached = some d → d.expiration? = some s →
      parseTS s = some t → tsGt t now = false →
      get_blessrole_credentials_lookup cached now = .assumeRole) := by
  constructor
  · intro d
    constructor
    · intro h
      match hc : cached with
      | none => exact absurd h (by simp [get_blessrole_credentials_lookup])
      | some d' =>
        simp only [get_blessrole_credentials_lookup] at h
        match he : d'.expiration? with
        | none =>
          simp only [he] at h
          split at h <;> simp_all
        | some s =>
          simp only [he] at h
          match hp : parseTS s with
          | none => simp only [hp] at h; simp_all
          | some t =>
            simp only [hp] at h
            split at h
            next hgt =>
              rcases RoleLookup.cachedHit.inj h with rfl
              exact ⟨rfl, s, t, he, hp, hgt⟩
            next => simp_all
    · rintro ⟨rfl, s, t, he, hp, hgt⟩
      simp [get_blessrole_credentials_lookup, he, hp, hgt]
  · rintro d s t rfl he hp hgt
    simp [get_blessrole_credentials_lookup, he, hp, hgt]

/-- Witness for `get_blessrole_credentials_cache_boundary`: an entry
whose expiration exactly equals `now` is treated as absent
(role-assumption), and one a second later is returned from cache. -/
theorem get_blessrole_credentials_cache_boundary_witness :
    get_blessrole_credentials_lookup
        (some ⟨some "20200101T000000Z", ["AccessKeyId"]⟩)
        ⟨2020, 1, 1, 0, 0, 0⟩ = .assumeRole ∧
    get_blessrole_credentials_lookup
        (some ⟨some "20200101T000001Z", ["AccessKeyId"]⟩)
        ⟨2020, 1, 1, 0, 0, 0⟩ =
      .cachedHit ⟨some "20200101T000001Z", ["AccessKeyId"]⟩ := by
  constructor
  · exact (get_blessrole_credentials_cache_boundary
      (some ⟨some "20200101T000000Z", ["AccessKeyId"]⟩)
      ⟨2020, 1, 1, 0, 0, 0⟩).2 ⟨some "20200101T000000Z", ["AccessKeyId"]⟩
      "20200101T000000Z" ⟨2020, 1, 1, 0, 0, 0⟩ rfl rfl (by decide) (by decide)
  · exact ((get_blessrole_credentials_cache_boundary
      (some ⟨some "20200101T000001Z", ["AccessKeyId"]⟩)
      ⟨2020, 1, 1, 0, 0, 0⟩).1
      ⟨some "20200101T000001Z", ["AccessKeyId"]⟩).mpr
      ⟨rfl, "20200101T000001Z", ⟨2020, 1, 1, 0, 0, 1⟩, rfl, by decide,
        by decide⟩

/-- **C7 counterexample**: a cached `'blessrole_creds'` entry that is
non-empty but lacks the `Expiration` key makes the lookup raise
`KeyError` (at `role_creds['Expiration'] > time.gmtime()`) instead of
treating the entry as absent and proceeding to a fresh role assumption. -/
theorem creds_missing_expiration_counterexample :
    get_blessrole_credentials_lookup (some ⟨none, ["AccessKeyId"]⟩)
        ⟨2020, 1, 1, 0, 0, 0⟩ = .raiseKeyError ∧
    get_blessrole_credentials_lookup (some ⟨none, ["AccessKeyId"]⟩)
        ⟨2020, 1, 1, 0, 0, 0⟩ ≠ .assumeRole := by decide

/-- **C7 amended**: an entry with a missing or unparsable expiration is
never returned as valid, but the lookup does not treat it as absent
either: an empty entry is treated as absent (fresh credential/token
path), while a non-empty entry with a missing `Expiration` key raises
`KeyError` and one with an unparsable `Expiration` raises `ValueError`,
in both the `'blessrole_creds'` and the `'kmsauth-<region>'` lookups. -/
theorem bad_expiration_never_valid (now : StructTime) (d : CredsDict)
    (e : KmsEntry) (nowMin skew : Int) (mint : Option String)
    (fmtMin : Int → String) :
    (d.expiration? = none → dictTruthy d = false →
      get_blessrole_credentials_lookup (some d) now = .assumeRole) ∧
    (d.expiration? = none → dictTruthy d = true →
      get_blessrole_credentials_lookup (some d) now = .raiseKeyError) ∧
    (∀ s, d.expiration? = some s → parseTS s = none →
      get_blessrole_credentials_lookup (some d) now = .raiseValueError) ∧
    (∀ d', d.expiration? = none →
      get_blessrole_credentials_lookup (some d) now ≠ .cachedHit d') ∧
    (e.expiration? = none →
      get_kmsauth_token_model (some e) now nowMin skew mint fmtMin =
        .raiseKeyError) ∧
    (∀ s, e.expiration? = some s → parseTS s = none →
      get_kmsauth_token_model (some e) now nowMin skew mint fmtMin =
        .raiseValueError) := by
  refine ⟨?_, ?_, ?_, ?_, ?_, ?_⟩
  · intro he ht
    simp [get_blessrole_credentials_lookup, he, ht]
  · intro he ht
    simp [get_blessrole_credentials_lookup, he, ht]
  · intro s he hp
    simp [get_blessrole_credentials_lookup, he, hp]
  · intro d' he
    by_cases ht : dictTruthy d = true
    · simp [get_blessrole_credentials_lookup, he, ht]
    · simp [get_blessrole_credentials_lookup, he,
        Bool.not_eq_true _ ▸ ht]
  · intro he
    simp [get_kmsauth_token_model, he]
  · intro s he hp
    simp [get_kmsauth_token_model, he, hp]

/-- Witness for `bad_expiration_never_valid`: unparsable-expiration
cases evaluated concretely, including the canonical-format but
calendar-invalid string `99990231T000000Z` (February 31), on which
`strptime` raises `ValueError` while constructing
`datetime.date(9999, 2, 31)`. -/
theorem bad_expiration_never_valid_witness :
    get_blessrole_credentials_lookup (some ⟨some "not a timestamp", []⟩)
        ⟨2020, 1, 1, 0, 0, 0⟩ = .raiseValueError ∧
    get_blessrole_credentials_lookup (some ⟨some "99990231T000000Z", []⟩)
        ⟨2020, 1, 1, 0, 0, 0⟩ = .raiseValueError ∧
    get_kmsauth_token_model (some ⟨some "tok", some "not a timestamp"⟩)
        ⟨2020, 1, 1, 0, 0, 0⟩ 0 0 none (fun _ => "") = .raiseValueError := by
  have h := bad_expiration_never_valid ⟨2020, 1, 1, 0, 0, 0⟩
    ⟨some "not a timestamp", []⟩ ⟨some "tok", some "not a timestamp"⟩
    0 0 none (fun _ => "")
  have h2 := bad_expiration_never_valid ⟨2020, 1, 1, 0, 0, 0⟩
    ⟨some "99990231T000000Z", []⟩ ⟨some "tok", some "not a timestamp"⟩
    0 0 none (fun _ => "")
  exact ⟨h.2.2.1 "not a timestamp" rfl (by decide),
    h2.2.2.1 "99990231T000000Z" rfl (by decide),
    h.2.2.2.2.2 "not a timestamp" rfl (by decide)⟩

/-- **C8**: in `get_kmsauth_token`, once the cache lookup misses and a
token is minted, the computed usable lifetime is
`60 - 2 * TOKEN_SKEW` minutes: when it is zero or negative the freshly
minted token is returned but never written to the cache (the
`'kmsauth-<region>'` entry stays exactly what it was and no save runs);
when it is positive, the token together with the computed expiration
`now + lifetime` is written to the cache and persisted before
returning. -/
theorem get_kmsauth_token_lifetime_guard (cached : Option KmsEntry)
    (nowT : StructTime) (nowMin skew : Int) (tok : String)
    (fmtMin : Int → String) (hmiss : kmsLookupMiss cached nowT = true) :
    (60 - skew * 2 ≤ 0 →
      get_kmsauth_token_model cached nowT nowMin skew (some tok) fmtMin =
        .minted tok cached false) ∧
    (0 < 60 - skew * 2 →
      get_kmsauth_token_model cached nowT nowMin skew (some tok) fmtMin =
        .minted tok (some ⟨some tok, some (fmtMin (nowMin + (60 - skew * 2)))⟩)
          true) := by
  have hmint : get_kmsauth_token_model cached nowT nowMin skew (some tok)
      fmtMin = kmsMintTail cached nowMin skew (some tok) fmtMin := by
    match hc : cached with
    | none => simp [get_kmsauth_token_model]
    | some e =>
      simp only [kmsLookupMiss] at hmiss
      match he : e.expiration? with
      | none =>
        simp only [he] at hmiss
        exact Bool.noConfusion hmiss
      | some s =>
        simp only [he] at hmiss
        match hp : parseTS s with
        | none =>
          simp only [hp] at hmiss
          exact Bool.noConfusion hmiss
        | some t =>
          simp only [hp] at hmiss
          simp only [get_kmsauth_token_model, he, hp]
          split at hmiss
          next hgt =>
            rw [if_pos hgt]
            match htok : e.token with
            | some tk =>
              simp only [htok, Option.isNone_some] at hmiss
              exact Bool.noConfusion hmiss
            | none => simp only [htok]
          next hgt => rw [if_neg hgt]
  constructor
  · intro hle
    rw [hmint]
    simp only [kmsMintTail]
    rw [if_neg (by omega)]
  · intro hpos
    rw [hmint]
    simp only [kmsMintTail]
    rw [if_pos hpos]

/-- Witness for `get_kmsauth_token_lifetime_guard`: skew 30 minutes
(lifetime 0, not cached) and skew 2 minutes (lifetime 56, cached and
saved), on an empty cache slot. -/
theorem get_kmsauth_token_lifetime_guard_witness :
    get_kmsauth_token_model none ⟨2020, 1, 1, 0, 0, 0⟩ 100 30 (some "tok")
        (fun _ => "exp") = .minted "tok" none false ∧
    get_kmsauth_token_model none ⟨2020, 1, 1, 0, 0, 0⟩ 100 2 (some "tok")
        (fun _ => "exp") =
      .minted "tok" (some ⟨some "tok", some "exp"⟩) true := by
  constructor
  · exact (get_kmsauth_token_lifetime_guard none ⟨2020, 1, 1, 0, 0, 0⟩ 100 30
      "tok" (fun _ => "exp") (by decide)).1 (by decide)
  · exact (get_kmsauth_token_lifetime_guard none ⟨2020, 1, 1, 0, 0, 0⟩ 100 2
      "tok" (fun _ => "exp") (by decide)).2 (by decide)

/-! ## Vault backend: 403 → re-authenticate and retry once
(`get_cached_auth_token`, client.py lines 637-653; `auth_okta`, lines
704-737; `vault_bless`, lines 804-820)

`VaultCA.getCert` and the `BlessCache` class live outside `src/`; per
the spec, `getCert` POSTs to the signing path and an HTTP 403 surfaces
as `hvac.exceptions.Forbidden`, modelled as `VaultResult.forbidden`. -/

structure VaultCreds where
  token : String
  /-- the `expiration` value; `None` allowed (checked explicitly). -/
  expiration : Option String
  username : String
deriving DecidableEq, Repr

/-- `get_cached_auth_token(bless_cache)` given the `'vault_creds'`
cache value: `None` when the entry or its expiration is `None` or the
expiration is not in the future; the token when
`utcnow() < strptime(expiration)`; `ValueError` (`.error`) when the
expiration does not parse.  (`datetime.strptime`, used here, differs
from the `time.strptime` modelled by `parseTS` only in rejecting the
leap seconds 60-61, which `auth_okta` - writing `strftime` of a real
`datetime` - never stores.) -/
def get_cached_auth_token_model (vc : Option VaultCreds) (now : StructTime) :
    Except Unit (Option String) :=
  match vc with
  | none => .ok none
  | some v =>
    match v.expiration with
    | none => .ok none
    | some s =>
      match parseTS s with
      | none => .error ()
      | some t => if tsLex now t then .ok (some v.token) else .ok none

/-- Modelled from the spec: the `BlessCache` store (class not under
`src/`) in no-cache / forced-refresh mode (`get_bless_cache(True, ...)`,
`CACHEMODE_RECACHE`).  A forced-refresh run bypasses cached entries, so
`get` returns absent for every key; otherwise the stored value is
returned. -/
def cacheGetVaultCreds (recache : Bool) (stored : Option VaultCreds) :
    Option VaultCreds :=
  if recache then none else stored

inductive AuthMode where
  /-- `auth_okta` reused the cached session token (no prompt). -/
  | cached
  /-- `auth_okta` prompted for username/password and authenticated
  interactively. -/
  | interactive
deriving DecidableEq, Repr

/-- Which branch `auth_okta(client, auth_mount, bless_cache)` takes
(client.py lines 713-718 vs 719-737), given the cache mode and the
stored `'vault_creds'` value. -/
def auth_okta_mode (recache : Bool) (stored : Option VaultCreds)
    (now : StructTime) : AuthMode :=
  match get_cached_auth_token_model (cacheGetVaultCreds recache stored) now with
  | .ok (some _) => .cached
  | _ => .interactive

inductive VaultResult where
  | ok (cert : String)
  /-- HTTP 403: `hvac.exceptions.Forbidden`. -/
  | forbidden
deriving DecidableEq, Repr

inductive VaultFlowResult where
  | success (cert : String) (signCalls : Nat) (reauths : Nat)
  /-- the retry's `Forbidden` propagates uncaught: the run aborts. -/
  | abortForbidden (signCalls : Nat) (reauths : Nat)
deriving DecidableEq, Repr

/-- The `try: cert = vault_ca.getCert(payload) except
hvac.exceptions.Forbidden:` block of `vault_bless` (client.py lines
804-820): on the first `Forbidden`, re-authenticate (with a forced
no-cache cache) and call `getCert` exactly once more; a `Forbidden` from
the retry is not caught.  `first`/`retry` are the outcomes the Vault
server gives the two possible signing calls. -/
def vault_sign_with_retry (first retry : VaultResult) : VaultFlowResult :=
  match first with
  | .ok cert => .success cert 1 0
  | .forbidden =>
    match retry with
    | .ok cert => .success cert 2 1
    | .forbidden => .abortForbidden 2 1

/-- **C9**: in the Vault backend, a permission-denied (HTTP 403 /
`Forbidden`) on the signing call forces a fresh interactive
authentication — the re-auth uses a forced no-cache cache, so the cached
session token is bypassed and the interactive branch is taken regardless
of what is stored — and the signing call is retried exactly once: a 403
on the retry aborts the run, and when the first signing call succeeds no
re-authentication and no retry occur. -/
theorem vault_forbidden_retry_once :
    (∀ cert retry, vault_sign_with_retry (.ok cert) retry =
      .success cert 1 0) ∧
    (∀ cert, vault_sign_with_retry .forbidden (.ok cert) =
      .success cert 2 1) ∧
    vault_sign_with_retry .forbidden .forbidden = .abortForbidden 2 1 ∧
    (∀ stored now, auth_okta_mode true stored now = .interactive) := by
  refine ⟨fun cert retry => rfl, fun cert => rfl, rfl, fun stored now => rfl⟩
